import Mathlib

/-
Verification of the frame synchronization, presentation-state and export
pipeline of the Quest3 timestamped stereo casting client, against its C/C++
source (app/src/screen.c, the three-argument apply_video_effects of
video_preprocess, device_time.cpp).  Machine integers are modelled as Nat/Int
with explicit reductions modulo 2^w where the C width matters.
-/

/-! ### Byte-level encoding of the export frame header (screen.c, struct frame_header) -/

/-- The modulus of the C `uint32_t` arithmetic used by the header checksum. -/
def M32 : Nat := 2 ^ 32

/-- Little-endian byte encoding of a value on `n` bytes: the in-memory layout of
the packed `struct frame_header` integer fields on a little-endian machine. -/
def toLEBytes : Nat → Nat → List Nat
  | 0, _ => []
  | n + 1, v => v % 256 :: toLEBytes n (v / 256)

/-- Two's-complement representative of a signed 64-bit value. -/
def int64ToNat (v : Int) : Nat := (v % (2 : Int) ^ 64).toNat

/-- Two's-complement representative of a signed 32-bit value. -/
def int32ToNat (v : Int) : Nat := (v % (2 : Int) ^ 32).toNat

/-- The fields of the packed `struct frame_header` of screen.c (lines 1258-1268):
8-byte delimiter (a fixed constant, below), int64 timestamp in ms, int32 width,
int32 height, uint32 payload size, uint32 checksum; 32 bytes, no padding. -/
structure frame_header where
  timestamp_ms : Int
  width : Int
  height : Int
  frame_size : Nat
  checksum : Nat
deriving DecidableEq

/-- `FRAME_DELIMITER` (screen.c lines 1271-1274): eight 0xFF bytes. -/
def FRAME_DELIMITER : List Nat := List.replicate 8 255

/-- The first 28 bytes of the packed header — everything except the trailing
checksum field — exactly the bytes `calculate_header_checksum` iterates
(`sizeof(struct frame_header) - sizeof(uint32_t)` = 28). -/
def checksum_input_bytes (h : frame_header) : List Nat :=
  FRAME_DELIMITER ++ toLEBytes 8 (int64ToNat h.timestamp_ms)
    ++ toLEBytes 4 (int32ToNat h.width) ++ toLEBytes 4 (int32ToNat h.height)
    ++ toLEBytes 4 h.frame_size

/-- One iteration of `calculate_header_checksum` (screen.c line 1284):
`checksum = (checksum << 8) ^ data[i]` on a `uint32_t` accumulator. -/
def checksum_step (c b : Nat) : Nat := (c * 256 % M32) ^^^ b

/-- `calculate_header_checksum` (screen.c lines 1277-1287), applied to the byte
list it iterates over. -/
def calculate_header_checksum (bytes : List Nat) : Nat :=
  bytes.foldl checksum_step 0

/-- The full 32-byte packed header as written by
`fwrite(&header, sizeof(header), 1, stdout)`. -/
def header_bytes (h : frame_header) : List Nat :=
  checksum_input_bytes h ++ toLEBytes 4 h.checksum

theorem toLEBytes_length (n : Nat) : ∀ v, (toLEBytes n v).length = n := by
  induction n with
  | zero => intro v; rfl
  | succ n ih => intro v; simp [toLEBytes, ih]

theorem toLEBytes_lt (n : Nat) : ∀ v, ∀ b ∈ toLEBytes n v, b < 256 := by
  induction n with
  | zero => intro v b hb; simp [toLEBytes] at hb
  | succ n ih =>
    intro v b hb
    simp only [toLEBytes, List.mem_cons] at hb
    rcases hb with rfl | hb
    · exact Nat.mod_lt _ (by norm_num)
    · exact ih _ b hb

/-- The big-endian accumulation step the checksum recursion turns out to
implement on each byte (before 32-bit truncation). -/
def beStep (a b : Nat) : Nat := a * 256 + b

theorem beStep_foldl_shift (bs : List Nat) :
    ∀ x, bs.foldl beStep x = x * 256 ^ bs.length + bs.foldl beStep 0 := by
  induction bs with
  | nil => intro x; simp
  | cons b bs ih =>
    intro x
    simp only [List.foldl_cons, List.length_cons]
    rw [ih (beStep x b), ih (beStep 0 b)]
    simp only [beStep]
    ring

theorem beVal_lt (bs : List Nat) (h : ∀ b ∈ bs, b < 256) :
    bs.foldl beStep 0 < 256 ^ bs.length := by
  induction bs with
  | nil => simp
  | cons b bs ih =>
    simp only [List.foldl_cons, List.length_cons]
    rw [beStep_foldl_shift bs (beStep 0 b)]
    have hb : b < 256 := h b (by simp)
    have hbs : bs.foldl beStep 0 < 256 ^ bs.length :=
      ih (fun x hx => h x (by simp [hx]))
    have hstep : beStep 0 b = b := by simp [beStep]
    rw [hstep]
    calc b * 256 ^ bs.length + bs.foldl beStep 0
        < b * 256 ^ bs.length + 256 ^ bs.length := by omega
      _ = (b + 1) * 256 ^ bs.length := by ring
      _ ≤ 256 * 256 ^ bs.length := Nat.mul_le_mul_right _ (by omega)
      _ = 256 ^ (bs.length + 1) := by ring

/-- A value with zero low byte xor-ed with a byte is just their sum. -/
theorem mul_add_lt_is_xor {i b : Nat} (hb : b < 2 ^ i) (a : Nat) :
    2 ^ i * a + b = 2 ^ i * a ^^^ b := by
  apply Nat.eq_of_testBit_eq
  intro j
  rw [Nat.testBit_mul_pow_two_add _ hb, Nat.testBit_xor, Nat.testBit_mul_pow_two]
  by_cases hj : j < i
  · simp [hj, Nat.not_le_of_lt hj]
  · have hij : i ≤ j := Nat.le_of_not_lt hj
    have hbj : b < 2 ^ j :=
      lt_of_lt_of_le hb (Nat.pow_le_pow_right (by norm_num) hij)
    simp [hij, hj, Nat.testBit_lt_two_pow hbj]

theorem checksum_step_eq (c : Nat) {b : Nat} (hb : b < 256) :
    checksum_step c b = (c * 256 + b) % M32 := by
  unfold checksum_step
  have hdvd : (256 : Nat) ∣ c * 256 % M32 := by
    have h32 : (256 : Nat) ∣ M32 := by norm_num [M32]
    rw [Nat.dvd_mod_iff h32]
    exact dvd_mul_left 256 c
  obtain ⟨a, ha⟩ := hdvd
  have hmlt : c * 256 % M32 < M32 := Nat.mod_lt _ (by norm_num [M32])
  have hlt : c * 256 % M32 + b < M32 := by
    rw [ha] at hmlt ⊢
    have : a < 2 ^ 24 := by
      by_contra hc
      push_neg at hc
      have : 256 * 2 ^ 24 ≤ 256 * a := Nat.mul_le_mul_left _ hc
      norm_num [M32] at hmlt
      omega
    norm_num [M32]
    omega
  have hxor : c * 256 % M32 ^^^ b = c * 256 % M32 + b := by
    rw [ha]
    have hb8 : b < 2 ^ 8 := by omega
    calc (256 : Nat) * a ^^^ b = 2 ^ 8 * a ^^^ b := by norm_num
      _ = 2 ^ 8 * a + b := (mul_add_lt_is_xor hb8 a).symm
      _ = 256 * a + b := by norm_num
  rw [hxor, Nat.add_mod, Nat.mod_eq_of_lt (lt_trans hb (by norm_num [M32]))]
  exact (Nat.mod_eq_of_lt hlt).symm

theorem checksum_foldl (bs : List Nat) (hbs : ∀ b ∈ bs, b < 256) :
    ∀ c, c < M32 → bs.foldl checksum_step c = bs.foldl beStep c % M32 := by
  induction bs with
  | nil => intro c hc; simpa using (Nat.mod_eq_of_lt hc).symm
  | cons b bs ih =>
    intro c hc
    have hb : b < 256 := hbs b (by simp)
    have hbs2 : ∀ x ∈ bs, x < 256 := fun x hx => hbs x (by simp [hx])
    simp only [List.foldl_cons]
    rw [checksum_step_eq c hb,
        ih hbs2 _ (Nat.mod_lt _ (by norm_num [M32]))]
    rw [beStep_foldl_shift bs ((c * 256 + b) % M32), beStep_foldl_shift bs (beStep c b)]
    have h1 : (c * 256 + b) % M32 ≡ c * 256 + b [MOD M32] := Nat.mod_modEq _ _
    have h2 := (h1.mul_right (256 ^ bs.length)).add_right (bs.foldl beStep 0)
    simpa [beStep] using h2

/-- The checksum of a byte list ending in four bytes is the big-endian value of
those last four bytes: the 32-bit left shifts discard every earlier byte. -/
theorem calculate_header_checksum_append_four (p s : List Nat)
    (hp : ∀ b ∈ p, b < 256) (hs : ∀ b ∈ s, b < 256) (hlen : s.length = 4) :
    calculate_header_checksum (p ++ s) = s.foldl beStep 0 := by
  unfold calculate_header_checksum
  have hall : ∀ b ∈ p ++ s, b < 256 := by
    intro b hb
    rcases List.mem_append.mp hb with h | h
    exacts [hp b h, hs b h]
  rw [checksum_foldl _ hall 0 (by norm_num [M32]), List.foldl_append,
      beStep_foldl_shift s (p.foldl beStep 0)]
  have hv : s.foldl beStep 0 < 256 ^ s.length := beVal_lt s hs
  rw [hlen] at hv
  have h1 : (256 : Nat) ^ 4 = M32 := by norm_num [M32]
  rw [hlen, h1, mul_comm (p.foldl beStep 0) M32, Nat.mul_add_mod]
  exact Nat.mod_eq_of_lt (h1 ▸ hv)

theorem checksum_input_head_lt (h : frame_header) :
    ∀ b ∈ FRAME_DELIMITER ++ toLEBytes 8 (int64ToNat h.timestamp_ms)
      ++ toLEBytes 4 (int32ToNat h.width) ++ toLEBytes 4 (int32ToNat h.height),
      b < 256 := by
  intro b hb
  simp only [List.mem_append] at hb
  rcases hb with ((hb | hb) | hb) | hb
  · simp only [FRAME_DELIMITER, List.mem_replicate] at hb
    omega
  · exact toLEBytes_lt 8 _ b hb
  · exact toLEBytes_lt 4 _ b hb
  · exact toLEBytes_lt 4 _ b hb

/-- Claim C1 (amended): encoding the same header fields twice reproduces an
identical checksum — indeed the computed checksum depends only on the last four
of the 28 iterated bytes (the frame_size field), because each of the 24 earlier
bytes has been shifted out of the 32-bit accumulator by the time the loop ends;
so flipping any single byte of the delimiter, timestamp, width or height fields
never changes the checksum. -/
theorem header_checksum_depends_only_on_frame_size (h1 h2 : frame_header)
    (hfs : h1.frame_size = h2.frame_size) :
    calculate_header_checksum (checksum_input_bytes h1)
      = calculate_header_checksum (checksum_input_bytes h2) := by
  unfold checksum_input_bytes
  rw [calculate_header_checksum_append_four _ _ (checksum_input_head_lt h1)
        (toLEBytes_lt 4 _) (toLEBytes_length 4 _),
      calculate_header_checksum_append_four _ _ (checksum_input_head_lt h2)
        (toLEBytes_lt 4 _) (toLEBytes_length 4 _),
      hfs]

/-- Witness for the amended C1 theorem at two concrete headers sharing only the
frame_size field. -/
theorem header_checksum_depends_only_on_frame_size_witness :
    calculate_header_checksum (checksum_input_bytes ⟨7, 640, 360, 345600, 0⟩)
      = calculate_header_checksum (checksum_input_bytes ⟨99, 1, 2, 345600, 0⟩) :=
  header_checksum_depends_only_on_frame_size ⟨7, 640, 360, 345600, 0⟩
    ⟨99, 1, 2, 345600, 0⟩ rfl

/-- Claim C1 counterexample: two headers whose 28 checksummed bytes differ in
exactly one byte (byte 8, the low byte of the timestamp field) yet have equal
computed checksums — flipping a non-checksum header byte does not always change
the checksum. -/
theorem header_checksum_byte_flip_collision :
    (checksum_input_bytes ⟨0, 0, 0, 0, 0⟩).take 8
        = (checksum_input_bytes ⟨1, 0, 0, 0, 0⟩).take 8
    ∧ (checksum_input_bytes ⟨0, 0, 0, 0, 0⟩).drop 9
        = (checksum_input_bytes ⟨1, 0, 0, 0, 0⟩).drop 9
    ∧ (checksum_input_bytes ⟨0, 0, 0, 0, 0⟩)[8]? = some 0
    ∧ (checksum_input_bytes ⟨1, 0, 0, 0, 0⟩)[8]? = some 1
    ∧ calculate_header_checksum (checksum_input_bytes ⟨0, 0, 0, 0, 0⟩)
        = calculate_header_checksum (checksum_input_bytes ⟨1, 0, 0, 0, 0⟩) := by
  decide

/-! ### FrameBuffer: single-slot producer/consumer hand-off, and its screen.c caller -/

variable {α : Type}

/-- Modelled from the spec: the `sc_frame_buffer` state (its implementation file
is not part of this source tree; spec section 3 "FrameBufferSlot" and section 4.1
give its contract): a slot holding at most one pending frame, a pending flag, and
a monotonically increasing skipped-frame counter. -/
structure sc_frame_buffer (α : Type) where
  pending : Bool
  slot : Option α
  skipped : Nat

/-- Modelled from the spec: `sc_frame_buffer_push` — a push while a frame is
still pending overwrites it (the new frame wins), increments the skip counter and
reports `skipped_previous = true`; otherwise it stores the frame and sets the
pending flag. -/
def sc_frame_buffer_push (fb : sc_frame_buffer α) (frame : α) :
    sc_frame_buffer α × Bool :=
  if fb.pending then
    (⟨true, some frame, fb.skipped + 1⟩, true)
  else
    (⟨true, some frame, fb.skipped⟩, false)

/-- Modelled from the spec: `sc_frame_buffer_consume` — atomically take ownership
of the pending frame and clear the pending flag; with nothing pending, a no-op
returning the previous content unchanged. -/
def sc_frame_buffer_consume (fb : sc_frame_buffer α) :
    sc_frame_buffer α × Option α :=
  if fb.pending then (⟨false, fb.slot, fb.skipped⟩, fb.slot)
  else (fb, fb.slot)

/-- The two counters `sc_screen_frame_sink_push` (screen.c lines 361-385) can
touch: the fps-counter's skipped-frame count (the caller's drop counter) and the
number of `SC_EVENT_NEW_FRAME` events posted. -/
structure push_counters where
  skipped_frames : Nat
  events : Nat

/-- `sc_screen_frame_sink_push` (screen.c lines 361-385): push into the frame
buffer; if the push skipped a previous frame, add a skipped frame to the fps
counter (no new event: the event already posted for the overwritten frame will
consume this one); otherwise post `SC_EVENT_NEW_FRAME`. -/
def sc_screen_frame_sink_push (fb : sc_frame_buffer α) (cnt : push_counters)
    (frame : α) : sc_frame_buffer α × push_counters :=
  let r := sc_frame_buffer_push fb frame
  if r.2 then
    (r.1, ⟨cnt.skipped_frames + 1, cnt.events⟩)
  else
    (r.1, ⟨cnt.skipped_frames, cnt.events + 1⟩)

/-- A burst of producer pushes with no intervening consume. -/
def sink_push_all (st : sc_frame_buffer α × push_counters) :
    List α → sc_frame_buffer α × push_counters
  | [] => st
  | f :: fs => sink_push_all (sc_screen_frame_sink_push st.1 st.2 f) fs

theorem sink_push_all_pending (fs : List α) :
    ∀ (x : α) (k d e : Nat),
      sink_push_all (⟨true, some x, k⟩, ⟨d, e⟩) fs
        = (⟨true, some (fs.getLastD x), k + fs.length⟩, ⟨d + fs.length, e⟩) := by
  induction fs with
  | nil => intro x k d e; rfl
  | cons f fs ih =>
    intro x k d e
    have h0 : sink_push_all ((⟨true, some x, k⟩ : sc_frame_buffer α), ⟨d, e⟩) (f :: fs)
        = sink_push_all (⟨true, some f, k + 1⟩, ⟨d + 1, e⟩) fs := rfl
    rw [h0, ih f (k + 1) (d + 1) e]
    have h1 : (f :: fs).getLastD x = fs.getLastD f := List.getLastD_cons x f fs
    have h2 : k + 1 + fs.length = k + (f :: fs).length := by simp; omega
    have h3 : d + 1 + fs.length = d + (f :: fs).length := by simp; omega
    rw [h1, h2, h3]

/-- Claim C2: pushing `n = 1 + rest.length` frames into the frame buffer with no
intervening consume leaves exactly the last-pushed frame for the next consume to
return, increases the buffer's skip counter by `n - 1`, and — because every
overwriting push reports `skipped_previous = true` — makes
`sc_screen_frame_sink_push` increment the caller's drop counter `n - 1` times
(and post exactly one new-frame event). -/
theorem frame_sink_push_sequence_last_wins (f : α) (rest : List α)
    (slot0 : Option α) (k d e : Nat) :
    (sc_frame_buffer_consume (sink_push_all (⟨false, slot0, k⟩, ⟨d, e⟩) (f :: rest)).1).2
        = some (rest.getLastD f)
    ∧ (sink_push_all (⟨false, slot0, k⟩, ⟨d, e⟩) (f :: rest)).1.skipped = k + rest.length
    ∧ (sink_push_all (⟨false, slot0, k⟩, ⟨d, e⟩) (f :: rest)).2.skipped_frames
        = d + rest.length
    ∧ (sink_push_all (⟨false, slot0, k⟩, ⟨d, e⟩) (f :: rest)).2.events = e + 1 := by
  have h0 : sink_push_all ((⟨false, slot0, k⟩ : sc_frame_buffer α), ⟨d, e⟩) (f :: rest)
      = sink_push_all (⟨true, some f, k⟩, ⟨d, e + 1⟩) rest := rfl
  rw [h0, sink_push_all_pending rest f k d (e + 1)]
  exact ⟨rfl, rfl, rfl, rfl⟩

/-! ### GeometryEngine: optimal window size (screen.c lines 98-151) -/

/-- `struct sc_size`: a width/height pair. -/
structure sc_size where
  width : Nat
  height : Nat
deriving DecidableEq

/-- `is_optimal_size` (screen.c lines 98-106): the size is optimal if one
dimension of the current size can be recomputed from the other by truncating
integer division against the content aspect ratio. -/
def is_optimal_size (current_size content_size : sc_size) : Bool :=
  current_size.height == current_size.width * content_size.height / content_size.width
    || current_size.width == current_size.height * content_size.width / content_size.height

/-- `get_optimal_size` (screen.c lines 113-151).  `display_bounds` stands for the
margin-reduced display area `get_preferred_display_bounds` reports (`none` when
that call fails): if constrained, the current size is first clamped to it; an
already-optimal size is returned as-is; otherwise the dimension chosen by
comparing `content.w * window.h` with `content.h * window.w` is recomputed from
the other to remove letterboxing. -/
def get_optimal_size (current_size content_size : sc_size)
    (within_display_bounds : Bool) (display_bounds : Option sc_size) : sc_size :=
  if content_size.width == 0 || content_size.height == 0 then
    current_size
  else
    let window_size :=
      match within_display_bounds, display_bounds with
      | true, some display_size =>
        sc_size.mk (min current_size.width display_size.width)
          (min current_size.height display_size.height)
      | _, _ => current_size
    if is_optimal_size window_size content_size then
      window_size
    else if content_size.width * window_size.height
        > content_size.height * window_size.width then
      sc_size.mk window_size.width
        (content_size.height * window_size.width / content_size.width)
    else
      sc_size.mk (content_size.width * window_size.height / content_size.height)
        window_size.height

theorem is_optimal_size_of_height (w ch cw : Nat) :
    is_optimal_size ⟨w, ch * w / cw⟩ ⟨cw, ch⟩ = true := by
  simp only [is_optimal_size, Bool.or_eq_true, beq_iff_eq]
  left
  rw [mul_comm w ch]

theorem is_optimal_size_of_width (h cw ch : Nat) :
    is_optimal_size ⟨cw * h / ch, h⟩ ⟨cw, ch⟩ = true := by
  simp only [is_optimal_size, Bool.or_eq_true, beq_iff_eq]
  right
  rw [mul_comm h cw]

/-- Claim C7: with clamping enabled and display bounds available, the size
returned by `get_optimal_size` for a nonzero content size never exceeds the
clamped display bounds in either dimension, and `is_optimal_size` holds of the
returned size for the same content size. -/
theorem get_optimal_size_within_bounds_and_optimal (cur content display : sc_size)
    (hw : content.width ≠ 0) (hh : content.height ≠ 0) :
    (get_optimal_size cur content true (some display)).width ≤ display.width
    ∧ (get_optimal_size cur content true (some display)).height ≤ display.height
    ∧ is_optimal_size (get_optimal_size cur content true (some display)) content
        = true := by
  have hcw : 0 < content.width := Nat.pos_of_ne_zero hw
  have hch : 0 < content.height := Nat.pos_of_ne_zero hh
  have h0 : (content.width == 0 || content.height == 0) = false := by
    simp only [Bool.or_eq_false_iff, beq_eq_false_iff_ne, ne_eq]
    exact ⟨hw, hh⟩
  unfold get_optimal_size
  rw [h0]
  simp only [Bool.false_eq_true, if_false]
  by_cases hopt : is_optimal_size
      ⟨min cur.width display.width, min cur.height display.height⟩ content = true
  · rw [if_pos hopt]
    exact ⟨Nat.min_le_right _ _, Nat.min_le_right _ _, hopt⟩
  · rw [if_neg hopt]
    by_cases hkw : content.width * min cur.height display.height
        > content.height * min cur.width display.width
    · rw [if_pos hkw]
      refine ⟨Nat.min_le_right _ _, ?_, ?_⟩
      · calc content.height * min cur.width display.width / content.width
            ≤ content.width * min cur.height display.height / content.width :=
              Nat.div_le_div_right (le_of_lt hkw)
          _ = min cur.height display.height := Nat.mul_div_cancel_left _ hcw
          _ ≤ display.height := Nat.min_le_right _ _
      · exact is_optimal_size_of_height _ _ _
    · rw [if_neg hkw]
      refine ⟨?_, Nat.min_le_right _ _, ?_⟩
      · calc content.width * min cur.height display.height / content.height
            ≤ content.height * min cur.width display.width / content.height :=
              Nat.div_le_div_right (Nat.le_of_not_lt hkw)
          _ = min cur.width display.width := Nat.mul_div_cancel_left _ hch
          _ ≤ display.width := Nat.min_le_right _ _
      · exact is_optimal_size_of_width _ _ _

/-- Witness for the C7 theorem: a 500x500 window on 4:3 content clamped into a
400x400 display area. -/
theorem get_optimal_size_within_bounds_and_optimal_witness :
    (get_optimal_size ⟨500, 500⟩ ⟨4, 3⟩ true (some ⟨400, 400⟩)).width
        ≤ (sc_size.mk 400 400).width
    ∧ (get_optimal_size ⟨500, 500⟩ ⟨4, 3⟩ true (some ⟨400, 400⟩)).height
        ≤ (sc_size.mk 400 400).height
    ∧ is_optimal_size (get_optimal_size ⟨500, 500⟩ ⟨4, 3⟩ true (some ⟨400, 400⟩))
        ⟨4, 3⟩ = true :=
  get_optimal_size_within_bounds_and_optimal ⟨500, 500⟩ ⟨4, 3⟩ ⟨400, 400⟩
    (by decide) (by decide)

/-! ### The streamed export sink: pipe_frame (screen.c lines 1289-1347) -/

/-- `AV_NOPTS_VALUE` (INT64_MIN): the unknown-timestamp sentinel. -/
def AV_NOPTS_VALUE : Int := -(2 ^ 63)

/-- An `AVFrame` as the exporter sees it: dimensions, presentation timestamp in
microseconds, and three planar byte buffers — `data p o` is the byte at offset
`o` of plane `p`, `linesize p` its stride (a row's storage may exceed its
width). -/
structure AVFrame where
  width : Nat
  height : Nat
  pts : Int
  data : Fin 3 → Nat → Nat
  linesize : Fin 3 → Nat

/-- The header `pipe_frame` prepares (screen.c lines 1290-1309):
`timestamp_ms = boot_time_ms + pts / 1000` with C truncating division and no
`AV_NOPTS_VALUE` check; `frame_size = w*h + w*h/4 + w*h/4` in `uint32_t`
arithmetic; the checksum is computed over the other 28 header bytes. -/
def pipe_header (w h : Nat) (pts boot_time_ms : Int) : frame_header :=
  let timestamp_ms := boot_time_ms + Int.tdiv pts 1000
  let frame_size := (w * h + w * h / 4 + w * h / 4) % 2 ^ 32
  let hdr0 : frame_header := ⟨timestamp_ms, (w : Int), (h : Int), frame_size, 0⟩
  ⟨timestamp_ms, (w : Int), (h : Int), frame_size,
    calculate_header_checksum (checksum_input_bytes hdr0)⟩

/-- The rows `pipe_frame` writes for plane `p`: `rows` rows of `cols` bytes, row
`i` taken from byte offset `i * linesize[p]` — tightly packed on output even when
the stride exceeds the row width. -/
def plane_rows (f : AVFrame) (p : Fin 3) (rows cols : Nat) : List (List Nat) :=
  (List.range rows).map fun i =>
    (List.range cols).map fun j => f.data p (i * f.linesize p + j)

/-- The sequence of `fwrite` calls `pipe_frame` makes for one frame: the packed
32-byte header, then `height` luma rows of `width` bytes, then `height/2` rows of
`width/2` bytes for each chroma plane (screen.c lines 1312-1343). -/
def pipe_writes (f : AVFrame) (boot_time_ms : Int) : List (List Nat) :=
  header_bytes (pipe_header f.width f.height f.pts boot_time_ms)
    :: (plane_rows f 0 f.height f.width
      ++ plane_rows f 1 (f.height / 2) (f.width / 2)
      ++ plane_rows f 2 (f.height / 2) (f.width / 2))

/-- The byte stream `pipe_frame` emits when every write succeeds. -/
def pipe_frame_bytes (f : AVFrame) (boot_time_ms : Int) : List Nat :=
  (pipe_writes f boot_time_ms).flatten

theorem header_bytes_length (h : frame_header) : (header_bytes h).length = 32 := by
  simp [header_bytes, checksum_input_bytes, FRAME_DELIMITER, toLEBytes_length]

theorem plane_rows_length (f : AVFrame) (p : Fin 3) (rows cols : Nat) :
    (plane_rows f p rows cols).length = rows := by
  simp [plane_rows]

theorem plane_rows_row_length (f : AVFrame) (p : Fin 3) (rows cols : Nat) :
    ∀ r ∈ plane_rows f p rows cols, r.length = cols := by
  intro r hr
  simp only [plane_rows, List.mem_map] at hr
  obtain ⟨i, _, rfl⟩ := hr
  simp

theorem plane_rows_flatten_length (f : AVFrame) (p : Fin 3) (rows cols : Nat) :
    (plane_rows f p rows cols).flatten.length = rows * cols := by
  simp only [List.length_flatten, plane_rows, List.map_map]
  have h1 : (List.length ∘ fun i => (List.range cols).map
      fun j => f.data p (i * f.linesize p + j)) = fun _ => cols := by
    funext i
    simp
  rw [h1, List.map_const', List.sum_const_nat, List.length_range]

/-- Claim C5: for every exported frame with even width and height (whose payload
fits 32-bit arithmetic), the streamed sink emits exactly a 32-byte header whose
payload-size field equals `w*h + 2*(w*h/4)`, immediately followed by `height`
tightly packed luma rows of `width` bytes, then `height/2` rows of `width/2`
bytes for each of the two chroma planes, regardless of the source plane
strides. -/
theorem pipe_frame_stream_layout (f : AVFrame) (boot : Int)
    (hw : f.width % 2 = 0) (hh : f.height % 2 = 0)
    (hsz : f.width * f.height < 2 ^ 31) :
    (header_bytes (pipe_header f.width f.height f.pts boot)).length = 32
    ∧ (pipe_header f.width f.height f.pts boot).frame_size
        = f.width * f.height + 2 * (f.width * f.height / 4)
    ∧ pipe_frame_bytes f boot
        = header_bytes (pipe_header f.width f.height f.pts boot)
          ++ (plane_rows f 0 f.height f.width).flatten
          ++ (plane_rows f 1 (f.height / 2) (f.width / 2)).flatten
          ++ (plane_rows f 2 (f.height / 2) (f.width / 2)).flatten
    ∧ (plane_rows f 0 f.height f.width).length = f.height
    ∧ (∀ r ∈ plane_rows f 0 f.height f.width, r.length = f.width)
    ∧ (plane_rows f 1 (f.height / 2) (f.width / 2)).length = f.height / 2
    ∧ (∀ r ∈ plane_rows f 1 (f.height / 2) (f.width / 2), r.length = f.width / 2)
    ∧ (plane_rows f 2 (f.height / 2) (f.width / 2)).length = f.height / 2
    ∧ (∀ r ∈ plane_rows f 2 (f.height / 2) (f.width / 2), r.length = f.width / 2)
    ∧ (pipe_frame_bytes f boot).length
        = 32 + (f.width * f.height + 2 * (f.width * f.height / 4)) := by
  refine ⟨header_bytes_length _, ?_, ?_, plane_rows_length f 0 _ _,
    plane_rows_row_length f 0 _ _, plane_rows_length f 1 _ _,
    plane_rows_row_length f 1 _ _, plane_rows_length f 2 _ _,
    plane_rows_row_length f 2 _ _, ?_⟩
  · show (f.width * f.height + f.width * f.height / 4 + f.width * f.height / 4)
        % 2 ^ 32 = f.width * f.height + 2 * (f.width * f.height / 4)
    have hq : f.width * f.height / 4 ≤ f.width * f.height := Nat.div_le_self _ _
    rw [Nat.mod_eq_of_lt (by omega)]
    omega
  · simp [pipe_frame_bytes, pipe_writes, List.append_assoc]
  · have hstruct : pipe_frame_bytes f boot
        = header_bytes (pipe_header f.width f.height f.pts boot)
          ++ ((plane_rows f 0 f.height f.width).flatten
            ++ ((plane_rows f 1 (f.height / 2) (f.width / 2)).flatten
              ++ (plane_rows f 2 (f.height / 2) (f.width / 2)).flatten)) := by
      simp [pipe_frame_bytes, pipe_writes, List.append_assoc]
    rw [hstruct]
    simp only [List.length_append, header_bytes_length, plane_rows_flatten_length]
    clear hstruct hsz
    generalize f.width = w at hw ⊢
    generalize f.height = h at hh ⊢
    obtain ⟨a, rfl⟩ := Nat.dvd_of_mod_eq_zero hw
    obtain ⟨b, rfl⟩ := Nat.dvd_of_mod_eq_zero hh
    have h2 : 2 * a * (2 * b) / 4 = a * b := by
      rw [show 2 * a * (2 * b) = 4 * (a * b) by ring,
        Nat.mul_div_cancel_left _ (by norm_num)]
    have h3 : 2 * a / 2 = a := Nat.mul_div_cancel_left _ (by norm_num)
    have h4 : 2 * b / 2 = b := Nat.mul_div_cancel_left _ (by norm_num)
    rw [h2, h3, h4]
    ring

/-- A concrete 4x2 test frame whose planes have stride 7 (wider than the rows). -/
def frame4x2 : AVFrame := ⟨4, 2, 0, fun p o => (p.val * 64 + o) % 251, fun _ => 7⟩

/-- Witness for the C5 theorem at `frame4x2`. -/
theorem pipe_frame_stream_layout_witness :
    (header_bytes (pipe_header frame4x2.width frame4x2.height frame4x2.pts 0)).length
      = 32 :=
  (pipe_frame_stream_layout frame4x2 0 (by decide) (by decide) (by decide)).1

/-! ### TimeCorrelator: the timestamp label (device_time.cpp and screen.c lines 800-854) -/

/-- `fromTimestamp` (device_time.cpp lines 57-84): split an epoch-milliseconds
value into seconds (C truncating division) and milliseconds (C remainder),
convert the seconds through `localtime`, and render the broken-down time with the
millisecond part; a null `localtime` result yields "Invalid timestamp".
`localtime` and the `snprintf` date rendering are external (timezone-dependent)
and are abstracted as parameters. -/
def fromTimestamp {tm : Type} (localtime : Int → Option tm)
    (render : tm → Int → String) (timestamp : Int) : String :=
  match localtime (Int.tdiv timestamp 1000) with
  | some tmTime => render tmTime (Int.tmod timestamp 1000)
  | none => "Invalid timestamp"

/-- The timestamp label computed on each frame arrival in `sc_screen_update_frame`
(screen.c lines 800-818 and 836-854): the fixed sentinel when the frame's pts is
`AV_NOPTS_VALUE`, otherwise `fromTimestamp(device_boot_time + pts / 1000)` with
pts in microseconds and C truncating division. -/
def timestamp_str {tm : Type} (localtime : Int → Option tm)
    (render : tm → Int → String) (boot_time_ms pts : Int) : String :=
  if pts = AV_NOPTS_VALUE then "No timestamps"
  else fromTimestamp localtime render (boot_time_ms + Int.tdiv pts 1000)

/-- Claim C6: the label is the fixed sentinel "No timestamps" exactly when the
frame's pts is the unknown sentinel; otherwise it is the millisecond-precision
local-time rendering of `boot_time_ms + pts/1000`; in particular
boot_time_ms = 5000 with pts = 2500000 µs formats epoch-ms 7500, which is split
into 7 seconds for `localtime` and a 500 ms remainder. -/
theorem timestamp_label_spec {tm : Type} (localtime : Int → Option tm)
    (render : tm → Int → String) (boot pts : Int)
    (hr : ∀ t ms, render t ms ≠ "No timestamps") :
    (timestamp_str localtime render boot pts = "No timestamps"
        ↔ pts = AV_NOPTS_VALUE)
    ∧ (pts ≠ AV_NOPTS_VALUE →
        timestamp_str localtime render boot pts
          = fromTimestamp localtime render (boot + Int.tdiv pts 1000))
    ∧ timestamp_str localtime render 5000 2500000
        = fromTimestamp localtime render 7500
    ∧ fromTimestamp localtime render 7500
        = (match localtime 7 with
          | some t => render t 500
          | none => "Invalid timestamp") := by
  refine ⟨⟨?_, ?_⟩, ?_, ?_, ?_⟩
  · intro hsent
    by_contra hne
    rw [timestamp_str, if_neg hne, fromTimestamp] at hsent
    rcases hlt : localtime (Int.tdiv (boot + Int.tdiv pts 1000) 1000) with _ | t
    · rw [hlt] at hsent
      simp at hsent
    · rw [hlt] at hsent
      exact hr t _ hsent
  · intro hpts
    rw [timestamp_str, if_pos hpts]
  · intro hne
    rw [timestamp_str, if_neg hne]
  · rw [timestamp_str, if_neg (by decide)]
    have e0 : (5000 : Int) + Int.tdiv 2500000 1000 = 7500 := by decide
    rw [e0]
  · rw [fromTimestamp]
    have e1 : Int.tdiv 7500 1000 = 7 := by decide
    have e2 : Int.tmod 7500 1000 = 500 := by decide
    rw [e1, e2]

/-- Witness for the C6 theorem: the boot_time_ms = 5000, pts = 2500000 scenario
with a concrete (trivial) localtime and renderer. -/
theorem timestamp_label_spec_witness :
    timestamp_str (fun _ => (none : Option Unit)) (fun _ _ => "t") 5000 2500000
      = fromTimestamp (fun _ => (none : Option Unit)) (fun _ _ => "t") 7500 :=
  (timestamp_label_spec (fun _ => (none : Option Unit)) (fun _ _ => "t") 5000 2500000
    (fun _ _ => by show "t" ≠ "No timestamps"; decide)).2.2.1

/-! ### The still-image sink's filename (screen.c lines 1173-1188) -/

/-- The two filename shapes of `save_frame_as_image`: `frame_%06d.ppm` when the
frame's pts is `AV_NOPTS_VALUE`, `frame_%06d_%lld.ppm` with the correlated
timestamp otherwise. -/
inductive ppm_filename where
  | counter_only (frame_number : Nat)
  | with_timestamp (frame_number : Nat) (timestamp_ms : Int)
deriving DecidableEq

/-- The filename choice made by `save_frame_as_image` (screen.c lines 1173-1188):
unlike `pipe_frame`, it checks the unknown-pts sentinel and falls back to the
counter-only name. -/
def save_frame_filename (frame_number : Nat) (boot_time_ms pts : Int) :
    ppm_filename :=
  if pts = AV_NOPTS_VALUE then ppm_filename.counter_only frame_number
  else ppm_filename.with_timestamp frame_number (boot_time_ms + Int.tdiv pts 1000)

/-- Claim C10: for a frame whose pts is the unknown sentinel `AV_NOPTS_VALUE`,
the streamed sink's header timestamp is still computed as `boot + pts/1000` —
the large negative value `boot - 9223372036854775` — with no special case, while
for the same pts the label path returns the sentinel string and the still-image
path falls back to the counter-only filename. -/
theorem pipe_header_no_nopts_check {tm : Type} (f : AVFrame) (boot : Int) (n : Nat)
    (localtime : Int → Option tm) (render : tm → Int → String)
    (hpts : f.pts = AV_NOPTS_VALUE) (hboot : boot < 9223372036854775) :
    (pipe_header f.width f.height f.pts boot).timestamp_ms
        = boot - 9223372036854775
    ∧ (pipe_header f.width f.height f.pts boot).timestamp_ms < 0
    ∧ timestamp_str localtime render boot f.pts = "No timestamps"
    ∧ save_frame_filename n boot f.pts = ppm_filename.counter_only n := by
  have htd : Int.tdiv AV_NOPTS_VALUE 1000 = -9223372036854775 := by decide
  have h1 : (pipe_header f.width f.height f.pts boot).timestamp_ms
      = boot - 9223372036854775 := by
    show boot + Int.tdiv f.pts 1000 = boot - 9223372036854775
    rw [hpts, htd]
    ring
  refine ⟨h1, ?_, ?_, ?_⟩
  · rw [h1]
    omega
  · rw [timestamp_str, if_pos hpts]
  · rw [save_frame_filename, if_pos hpts]

/-- Witness for the C10 theorem: a realistic boot time with an unknown pts. -/
theorem pipe_header_no_nopts_check_witness :
    (pipe_header frame4x2.width frame4x2.height AV_NOPTS_VALUE 1700000000000).timestamp_ms
        = 1700000000000 - 9223372036854775
    ∧ (pipe_header frame4x2.width frame4x2.height AV_NOPTS_VALUE 1700000000000).timestamp_ms < 0
    ∧ timestamp_str (fun _ => (none : Option Unit)) (fun _ _ => "t")
        1700000000000 AV_NOPTS_VALUE = "No timestamps"
    ∧ save_frame_filename 3 1700000000000 AV_NOPTS_VALUE
        = ppm_filename.counter_only 3 := by
  have h := pipe_header_no_nopts_check
    (AVFrame.mk frame4x2.width frame4x2.height AV_NOPTS_VALUE frame4x2.data frame4x2.linesize)
    1700000000000 3 (fun _ => (none : Option Unit)) (fun _ _ => "t") rfl (by decide)
  exact h

/-! ### Pre-processing: apply_video_effects (video_preprocess, three-argument version) -/

/-- The metadata of an `AVFrame` relevant to sizing and timestamps. -/
structure frame_dims where
  width : Nat
  height : Nat
  pts : Int
deriving DecidableEq

/-- The outcome of one `apply_video_effects` call relevant to control flow and
frame dimensions: the value of the static `maps_loaded` flag afterwards, the
frame's dimensions afterwards, whether the call returned early (frame
unmodified), and whether it entered the map-loading block (where the load and its
error logging happen). -/
structure ve_result where
  maps_loaded : Bool
  frame : frame_dims
  aborted : Bool
  load_attempted : Bool
deriving DecidableEq

/-- The height growth applied at the end of `apply_video_effects`
(`display_height = show_text ? original_height + text_height : original_height`
with `text_height = 60`, lines 20-22 and 137 of the preprocessing source). -/
def ve_grow (show_text : Bool) (f : frame_dims) : frame_dims :=
  if show_text then ⟨f.width, f.height + 60, f.pts⟩ else f

/-- Control flow and dimensions of `apply_video_effects` (lines 14-54 and 136-147
of the preprocessing source).  `maps_loaded` is the static once-per-session flag;
`map_path` is `none` for a NULL path and `some ok` for a configured path whose
`cv::FileStorage` open succeeds iff `ok`; `show_text` says whether an overlay
string was passed.  With the flag unset and no path: abort unless text is shown,
else log and continue unmapped, setting the flag.  With the flag unset and a
path: an open failure logs and aborts without setting the flag; success loads
the maps and sets it.  Processing grows the height by the 60-row band iff text
is shown; the pixel transforms themselves are external. -/
def apply_video_effects (maps_loaded : Bool) (map_path : Option Bool)
    (show_text : Bool) (f : frame_dims) : ve_result :=
  if maps_loaded then
    ⟨true, ve_grow show_text f, false, false⟩
  else
    match map_path with
    | none =>
      if show_text then ⟨true, ve_grow show_text f, false, true⟩
      else ⟨false, f, true, true⟩
    | some ok =>
      if ok then ⟨true, ve_grow show_text f, false, true⟩
      else ⟨false, f, true, true⟩

/-- Claim C9 counterexample: a configured mapping path whose file cannot be
opened, with a timestamp overlay requested: `apply_video_effects` aborts and
returns the frame unmodified instead of continuing without the mapping, and
because the loaded flag stays unset the load (with its log message) is attempted
again on the very next call — not at most once per session. -/
theorem map_open_failure_aborts_despite_overlay :
    (apply_video_effects false (some false) true ⟨1920, 1024, 0⟩).aborted = true
    ∧ (apply_video_effects false (some false) true ⟨1920, 1024, 0⟩).frame
        = ⟨1920, 1024, 0⟩
    ∧ (apply_video_effects false (some false) true ⟨1920, 1024, 0⟩).maps_loaded
        = false
    ∧ (apply_video_effects
        (apply_video_effects false (some false) true ⟨1920, 1024, 0⟩).maps_loaded
        (some false) true ⟨1920, 1024, 0⟩).load_attempted = true := by
  decide

/-- Claim C9 (amended): with no map path configured, processing continues without
the mapping exactly when an overlay is requested, else it aborts with the frame
unmodified; with a configured path that cannot be opened it aborts regardless of
the overlay, and the loaded flag stays unset, so the load attempt (and its log)
recurs on every later call; the load is attempted exactly when the flag is
unset, and any non-aborting call sets the flag, after which no further load
attempt occurs. -/
theorem apply_video_effects_load_behavior (ml : Bool) (mp : Option Bool)
    (text : Bool) (f : frame_dims) :
    (apply_video_effects ml mp text f).load_attempted = !ml
    ∧ (ml = false → mp = none →
        ((apply_video_effects ml mp text f).aborted = !text
        ∧ (text = true → (apply_video_effects ml mp text f).maps_loaded = true)))
    ∧ (ml = false → ∀ ok, mp = some ok →
        ((apply_video_effects ml mp text f).aborted = !ok
        ∧ (apply_video_effects ml mp text f).maps_loaded = ok))
    ∧ (ml = true → ((apply_video_effects ml mp text f).aborted = false
        ∧ (apply_video_effects ml mp text f).maps_loaded = true))
    ∧ ((apply_video_effects ml mp text f).aborted = true →
        (apply_video_effects ml mp text f).frame = f)
    ∧ ((apply_video_effects ml mp text f).aborted = false →
        ((apply_video_effects ml mp text f).maps_loaded = true
        ∧ (apply_video_effects (apply_video_effects ml mp text f).maps_loaded
            mp text f).load_attempted = false)) := by
  cases ml <;> rcases mp with _ | ok <;> cases text <;>
    first
      | (cases ok <;> simp [apply_video_effects, ve_grow])
      | simp [apply_video_effects, ve_grow]

/-- Witness for the amended C9 theorem: the unopenable-map, overlay-requested
case. -/
theorem apply_video_effects_load_behavior_witness :
    (apply_video_effects false (some false) true ⟨8, 8, 0⟩).load_attempted
      = !false :=
  (apply_video_effects_load_behavior false (some false) true ⟨8, 8, 0⟩).1

/-! ### ScreenController: sc_screen_update_frame (screen.c lines 780-866) -/

/-- The per-session state `sc_screen_update_frame` consults: the pause flag, the
pre-processing configuration (`opencv_map_path` is `none` for NULL and `some ok`
for a path whose mapping file opens iff `ok`), the export configuration, the
device boot time, and the `maps_loaded` static of the preprocessing unit. -/
structure sc_screen_state where
  paused : Bool
  opencv_enabled : Bool
  opencv_map_path : Option Bool
  show_timestamps : Bool
  save_frames : Bool
  has_frame_dir : Bool
  pipe_output : Bool
  device_boot_time : Int
  maps_loaded : Bool
deriving DecidableEq

/-- The guard of the pre-processing block (screen.c lines 800 and 836):
`(opencv_enabled && opencv_map_path) || show_timestamps`. -/
def preprocess_enabled (s : sc_screen_state) : Bool :=
  (s.opencv_enabled && s.opencv_map_path.isSome) || s.show_timestamps

/-- What one `sc_screen_update_frame` call did: the preprocessing static flag
afterwards, the processed frame's dimensions, whether the frame was retained as
resume frame, whether `apply_video_effects` ran, whether `save_frame_as_image`
ran, the header `pipe_frame` wrote (none when it did not run), and whether the
frame was presented via `sc_screen_apply_frame`. -/
structure update_result where
  maps_loaded : Bool
  processed : frame_dims
  retained_resume : Bool
  effects_invoked : Bool
  saved_image : Bool
  piped_header : Option frame_header
  presented : Bool
deriving DecidableEq

/-- Dimension/action model of `sc_screen_update_frame` (screen.c lines 780-866)
on arrival of a frame `incoming`.  The paused branch (lines 784-821) consumes
into the resume frame, copies it into the processed frame, runs the enabled
pre-processing (with the timestamp label as overlay text iff `show_timestamps`),
and returns — exporting and presenting nothing.  The running branch (lines
823-865) consumes and deep-copies, runs the enabled pre-processing, then the
still-image export if `save_frames && frame_dir`, then `pipe_frame` if
`pipe_output`, then presents. -/
def sc_screen_update_frame (s : sc_screen_state) (incoming : frame_dims) :
    update_result :=
  let ve :=
    if preprocess_enabled s then
      apply_video_effects s.maps_loaded s.opencv_map_path s.show_timestamps incoming
    else
      ⟨s.maps_loaded, incoming, false, false⟩
  if s.paused then
    ⟨ve.maps_loaded, ve.frame, true, preprocess_enabled s, false, none, false⟩
  else
    ⟨ve.maps_loaded, ve.frame, false, preprocess_enabled s,
      s.save_frames && s.has_frame_dir,
      if s.pipe_output then
        some (pipe_header ve.frame.width ve.frame.height ve.frame.pts
          s.device_boot_time)
      else none,
      true⟩

/-- Claim C3 counterexample: with the screen paused and both export sinks
enabled, a frame arrival retains the resume frame and runs pre-processing, but
writes neither the still-image nor the streamed sink — the paused branch returns
before the export steps. -/
theorem paused_frame_skips_exports :
    (sc_screen_update_frame ⟨true, false, none, true, true, true, true, 0, true⟩
        ⟨1920, 1024, 0⟩).retained_resume = true
    ∧ (sc_screen_update_frame ⟨true, false, none, true, true, true, true, 0, true⟩
        ⟨1920, 1024, 0⟩).effects_invoked = true
    ∧ (sc_screen_update_frame ⟨true, false, none, true, true, true, true, 0, true⟩
        ⟨1920, 1024, 0⟩).saved_image = false
    ∧ (sc_screen_update_frame ⟨true, false, none, true, true, true, true, 0, true⟩
        ⟨1920, 1024, 0⟩).piped_header = none
    ∧ (sc_screen_update_frame ⟨true, false, none, true, true, true, true, 0, true⟩
        ⟨1920, 1024, 0⟩).presented = false := by
  decide

/-- Claim C3 (amended): on every frame arrival while paused, the frame is
retained as the resume frame and pre-processing runs when enabled, but neither
export sink writes and presentation is skipped; on every frame arrival while
running, pre-processing (when enabled), the enabled exports, then presentation
all occur. -/
theorem update_frame_paused_vs_running (s : sc_screen_state) (f : frame_dims) :
    (s.paused = true →
      ((sc_screen_update_frame s f).retained_resume = true
      ∧ (sc_screen_update_frame s f).effects_invoked = preprocess_enabled s
      ∧ (sc_screen_update_frame s f).saved_image = false
      ∧ (sc_screen_update_frame s f).piped_header = none
      ∧ (sc_screen_update_frame s f).presented = false))
    ∧ (s.paused = false →
      ((sc_screen_update_frame s f).retained_resume = false
      ∧ (sc_screen_update_frame s f).effects_invoked = preprocess_enabled s
      ∧ (sc_screen_update_frame s f).saved_image
          = (s.save_frames && s.has_frame_dir)
      ∧ (sc_screen_update_frame s f).piped_header
          = (if s.pipe_output then
              some (pipe_header (sc_screen_update_frame s f).processed.width
                (sc_screen_update_frame s f).processed.height
                (sc_screen_update_frame s f).processed.pts s.device_boot_time)
            else none)
      ∧ (sc_screen_update_frame s f).presented = true)) := by
  by_cases hp : s.paused = true
  · refine ⟨fun _ => ?_, fun hf => absurd hp (by simp [hf])⟩
    simp [sc_screen_update_frame, hp]
  · have hp2 : s.paused = false := by simpa using hp
    refine ⟨fun hf => absurd hf hp, fun _ => ?_⟩
    simp [sc_screen_update_frame, hp2]

/-- Witness for the amended C3 theorem at a paused state. -/
theorem update_frame_paused_vs_running_witness :
    (sc_screen_update_frame ⟨true, false, none, false, true, true, true, 0, false⟩
        ⟨640, 360, 0⟩).piped_header = none :=
  ((update_frame_paused_vs_running
    ⟨true, false, none, false, true, true, true, 0, false⟩ ⟨640, 360, 0⟩).1
    rfl).2.2.2.1

/-- Claim C8: when the timestamp overlay is applied (running, timestamps shown,
and the pre-processing does not abort on an unopenable map file), the processed
frame keeps its width and its height grows by exactly the fixed 60-row band, and
the streamed export header written for that same frame reports the grown
height. -/
theorem timestamp_overlay_grows_height_into_header (s : sc_screen_state)
    (f : frame_dims) (hrun : s.paused = false) (hts : s.show_timestamps = true)
    (hpipe : s.pipe_output = true)
    (hmap : s.opencv_map_path ≠ some false ∨ s.maps_loaded = true) :
    (sc_screen_update_frame s f).processed.width = f.width
    ∧ (sc_screen_update_frame s f).processed.height = f.height + 60
    ∧ (sc_screen_update_frame s f).piped_header
        = some (pipe_header f.width (f.height + 60) f.pts s.device_boot_time)
    ∧ (pipe_header f.width (f.height + 60) f.pts s.device_boot_time).height
        = (f.height : Int) + 60 := by
  have hpre : preprocess_enabled s = true := by
    simp [preprocess_enabled, hts]
  have hve : apply_video_effects s.maps_loaded s.opencv_map_path s.show_timestamps f
      = ⟨true, ⟨f.width, f.height + 60, f.pts⟩, false,
          !s.maps_loaded⟩ := by
    rw [hts]
    cases hml : s.maps_loaded
    · rcases hmp : s.opencv_map_path with _ | ok
      · simp [apply_video_effects, ve_grow]
      · rcases ok with _ | _
        · rcases hmap with hmap | hmap
          · exact absurd hmp hmap
          · rw [hml] at hmap
            exact absurd hmap (by simp)
        · simp [apply_video_effects, ve_grow]
    · simp [apply_video_effects, ve_grow]
  have hsu : sc_screen_update_frame s f
      = ⟨true, ⟨f.width, f.height + 60, f.pts⟩, false, true,
          s.save_frames && s.has_frame_dir,
          some (pipe_header f.width (f.height + 60) f.pts s.device_boot_time),
          true⟩ := by
    rw [sc_screen_update_frame]
    simp only [hpre, if_true, hve, hrun, hpipe, Bool.false_eq_true, if_false,
      if_true]
  rw [hsu]
  refine ⟨rfl, rfl, rfl, ?_⟩
  show ((f.height + 60 : Nat) : Int) = (f.height : Int) + 60
  push_cast
  ring

/-- Witness for the C8 theorem: the 1920x1024 frame growing to 1920x1084, with
the export header reporting 1084. -/
theorem timestamp_overlay_grows_height_into_header_witness :
    (sc_screen_update_frame ⟨false, false, none, true, false, false, true, 5000, false⟩
        ⟨1920, 1024, 7000⟩).processed.height = 1084
    ∧ (pipe_header 1920 1084 7000 5000).height = 1084 := by
  have h := timestamp_overlay_grows_height_into_header
    ⟨false, false, none, true, false, false, true, 5000, false⟩ ⟨1920, 1024, 7000⟩
    rfl rfl rfl (Or.inl (by decide))
  exact ⟨h.2.1, by decide⟩

/-! ### Streamed-sink failure behavior across a session (screen.c lines 1312-1346, 861-863) -/

/-- One `pipe_frame` call against a fallible stdout: `ok k` is the success of the
k-th `fwrite` of the whole session.  The chunks of `pipe_writes` are handed to
`fwrite` in order; the first failing call logs and returns, abandoning the rest
of this frame's chunks (screen.c lines 1312-1343).  Returns the next session
write index and the chunk list handed to `fwrite` during this call. -/
def attempt_writes (ok : Nat → Bool) : Nat → List (List Nat) → Nat × List (List Nat)
  | k, [] => (k, [])
  | k, c :: cs =>
    if ok k then
      ((attempt_writes ok (k + 1) cs).1, c :: (attempt_writes ok (k + 1) cs).2)
    else (k + 1, [c])

/-- A running session of frame arrivals with `pipe_output` enabled:
`sc_screen_update_frame` calls `pipe_frame` for every frame (screen.c lines
861-863), and nothing in screen.c ever clears `pipe_output` or records a failed
write, so every frame's export is attempted independently of earlier failures.
Returns, per frame, the chunks handed to `fwrite`. -/
def pipe_session (ok : Nat → Bool) (boot : Int) :
    Nat → List AVFrame → List (List (List Nat))
  | _, [] => []
  | k, f :: fs =>
    (attempt_writes ok k (pipe_writes f boot)).2
      :: pipe_session ok boot (attempt_writes ok k (pipe_writes f boot)).1 fs

/-- A concrete 2x2 test frame with exact strides. -/
def frame2x2 : AVFrame := ⟨2, 2, 0, fun _ _ => 0, fun _ => 2⟩

/-- Claim C4 counterexample: in a two-frame session whose very first `fwrite`
(the first frame's header) fails, the second frame is nevertheless written to
the streamed sink in full — one failed write does not disable the sink for the
rest of the session. -/
theorem failed_write_does_not_disable_pipe :
    ((fun k => k != 0) 0) = false
    ∧ (pipe_session (fun k => k != 0) 0 0 [frame2x2, frame2x2]).length = 2
    ∧ (pipe_session (fun k => k != 0) 0 0 [frame2x2, frame2x2])[0]?
        = some [header_bytes (pipe_header 2 2 0 0)]
    ∧ (pipe_session (fun k => k != 0) 0 0 [frame2x2, frame2x2])[1]?
        = some (pipe_writes frame2x2 0)
    ∧ pipe_writes frame2x2 0 ≠ [] := by
  refine ⟨rfl, rfl, ?_, ?_, by decide⟩
  · show some _ = some _
    rfl
  · show some _ = some _
    rfl

/-- Claim C4 (amended): a failed write abandons only the remainder of that
frame's export; the streamed sink is never disabled — every frame of the
session, whatever earlier writes failed, has at least its header handed to
`fwrite` again. -/
theorem pipe_session_attempts_every_frame (ok : Nat → Bool) (boot : Int)
    (frames : List AVFrame) :
    ∀ k, (pipe_session ok boot k frames).length = frames.length
      ∧ ∀ c ∈ pipe_session ok boot k frames, c ≠ [] := by
  induction frames with
  | nil => intro k; exact ⟨rfl, by intro c hc; simp [pipe_session] at hc⟩
  | cons f fs ih =>
    intro k
    refine ⟨?_, ?_⟩
    · simp only [pipe_session, List.length_cons]
      rw [(ih _).1]
    · intro c hc
      simp only [pipe_session, List.mem_cons] at hc
      rcases hc with rfl | hc
      · show (attempt_writes ok k (pipe_writes f boot)).2 ≠ []
        rw [pipe_writes]
        cases hok : ok k <;> simp [attempt_writes, hok]
      · exact (ih _).2 c hc

/-- Witness for the amended C4 theorem on a concrete one-frame session. -/
theorem pipe_session_attempts_every_frame_witness :
    (pipe_session (fun _ => false) 0 0 [frame2x2]).length = [frame2x2].length :=
  (pipe_session_attempts_every_frame (fun _ => false) 0 [frame2x2] 0).1
